import Mathlib

/-!
Verification of the constrained pairing and ranking engine of the
BlackCobra karate club system.

The definitions below are a shallow embedding of the Python source:

* `core/services/matchmaking.py` — eligibility rules, pairing scorer,
  auto-matchmaker, judge conflict validator, judge assignment;
* `core/models.py` — the points ledger (`TraineePoints`), the promotion
  engine (`check_belt_rank_promotion`), the leaderboard builder
  (`_update_timeframe_leaderboard`) and the result-recording write path
  (`MatchResult.save` / `_award_match_points`).

Database rows are lists of records; database mutation is explicit state
passing on a `DB` structure.  Python `Decimal` weights become `ℚ`,
Python ints become `ℤ`/`ℕ`.
-/

namespace Karate

/-- Python abs on a rational value (model of the builtin abs). -/
def qabs (x : ℚ) : ℚ := if x < 0 then -x else x

/-- First index of a string in a list, as Python list.index finds it
(`none` models the ValueError branch). -/
def listIndexOf (x : String) : List String → Option Nat
  | [] => none
  | y :: ys => if y == x then some 0 else (listIndexOf x ys).map (· + 1)

/-- Belt rank order, BELT_ORDER in matchmaking.py (identical to the first
components of Trainee.BELT_CHOICES and BeltRankThreshold.BELT_CHOICES in
models.py). -/
def BELT_ORDER : List String :=
  ["white", "yellow", "orange", "green", "blue", "brown", "black"]

/-- get_belt_index from matchmaking.py: index in BELT_ORDER, -1 when the
rank is unknown. -/
def get_belt_index (belt_rank : String) : Int :=
  match listIndexOf belt_rank BELT_ORDER with
  | some i => (i : Int)
  | none => -1

/-- are_belts_adjacent from matchmaking.py. -/
def are_belts_adjacent (belt1 belt2 : String) : Bool :=
  let idx1 := get_belt_index belt1
  let idx2 := get_belt_index belt2
  if idx1 == -1 || idx2 == -1 then false
  else (idx1 - idx2).natAbs ≤ 1

/-- Trainee record: the fields of core.models.Trainee that the engine
reads (id, belt_rank, weight, and the derived age property, which is
None when the profile has no date of birth). -/
structure Trainee where
  id : Nat
  belt_rank : String
  weight : ℚ
  age : Option Int
deriving DecidableEq

/-- EventRegistration row for one event: the trainee and the
registration status. -/
structure EventRegistration where
  trainee : Trainee
  status : String
deriving DecidableEq

/-- Match row of one event as the matchmaking service reads it:
competitor ids and status. -/
structure MatchRec where
  competitor1_id : Nat
  competitor2_id : Nat
  status : String
deriving DecidableEq

/-- ProposedMatch dataclass from matchmaking.py. -/
structure ProposedMatch where
  competitor1 : Trainee
  competitor2 : Trainee
  weight_diff : ℚ
  belt_diff : Nat
  age_diff : Nat
  score : ℚ
deriving DecidableEq

/-- MAX_WEIGHT_DIFF constant (Decimal 5.0 kg). -/
def MAX_WEIGHT_DIFF : ℚ := 5

/-- MAX_AGE_DIFF constant (3 years). -/
def MAX_AGE_DIFF : Nat := 3

/-- MIN_JUDGES_REQUIRED constant (3 judges per match). -/
def MIN_JUDGES_REQUIRED : Nat := 3

/-- MatchmakingService._is_valid_pairing: weight within 5 kg, belts same
or adjacent, ages within 3 years when both are known. -/
def is_valid_pairing (t1 t2 : Trainee) : Bool :=
  if qabs (t1.weight - t2.weight) > MAX_WEIGHT_DIFF then false
  else if ¬ are_belts_adjacent t1.belt_rank t2.belt_rank then false
  else match t1.age, t2.age with
    | some age1, some age2 =>
        if (age1 - age2).natAbs > MAX_AGE_DIFF then false else true
    | _, _ => true

/-- MatchmakingService._calculate_pairing_score: weighted sum of the
three differences, a missing age contributing as 0 via the Python
expression age or 0. -/
def calculate_pairing_score (t1 t2 : Trainee) : ℚ :=
  let weight_diff := qabs (t1.weight - t2.weight)
  let belt_diff : Nat := (get_belt_index t1.belt_rank - get_belt_index t2.belt_rank).natAbs
  let age_diff : Nat := ((t1.age.getD 0) - (t2.age.getD 0)).natAbs
  weight_diff * 2 + (belt_diff : ℚ) * 3 + (age_diff : ℚ)

/-- All unordered pairs of a list in the enumeration order of the nested
loops of auto_match (i, then j greater than i). -/
def pairsOf {α : Type} : List α → List (α × α)
  | [] => []
  | x :: xs => (xs.map (fun y => (x, y))) ++ pairsOf xs

/-- Insert into a sorted list, keeping earlier elements before later
equal ones. -/
def insertSorted {α : Type} (le : α → α → Bool) (x : α) : List α → List α
  | [] => [x]
  | y :: ys => if le x y then x :: y :: ys else y :: insertSorted le x ys

/-- Stable sort (model of the stable Python list.sort). -/
def stableSort {α : Type} (le : α → α → Bool) : List α → List α
  | [] => []
  | x :: xs => insertSorted le x (stableSort le xs)

/-- Greedy selection loop of auto_match: walk the score-sorted pairings
and take a pair only when neither trainee was consumed before. -/
def greedy_select : List (Trainee × Trainee × ℚ) → List Nat → List ProposedMatch
  | [], _ => []
  | (t1, t2, score) :: rest, used =>
    if used.contains t1.id || used.contains t2.id then
      greedy_select rest used
    else
      { competitor1 := t1
        competitor2 := t2
        weight_diff := qabs (t1.weight - t2.weight)
        belt_diff := (get_belt_index t1.belt_rank - get_belt_index t2.belt_rank).natAbs
        age_diff := ((t1.age.getD 0) - (t2.age.getD 0)).natAbs
        score := score } :: greedy_select rest (used ++ [t1.id, t2.id])

/-- MatchmakingService.auto_match over the registrations and existing
matches of one event: keep registered trainees without a non-cancelled
match, score all valid pairings, sort ascending by score (stable), and
greedily select non-conflicting pairs. -/
def auto_match (registrations : List EventRegistration)
    (existing_matches : List MatchRec) : List ProposedMatch :=
  let trainees := (registrations.filter (fun r => r.status == "registered")).map
    (fun r => r.trainee)
  let matched_trainee_ids := (existing_matches.filter (fun m => m.status != "cancelled")).flatMap
    (fun m => [m.competitor1_id, m.competitor2_id])
  let available_trainees := trainees.filter (fun t => !(matched_trainee_ids.contains t.id))
  let all_pairings := ((pairsOf available_trainees).filter
      (fun p => is_valid_pairing p.1 p.2)).map
    (fun p => (p.1, p.2, calculate_pairing_score p.1 p.2))
  greedy_select (stableSort (fun a b => decide (a.2.2 ≤ b.2.2)) all_pairings) []

/-- Judge record: id and the optional linked trainee identity (the
try/except probe of judge.profile.trainee). -/
structure Judge where
  id : Nat
  linked_trainee : Option Nat
deriving DecidableEq

/-- MatchmakingService.validate_judge_assignment for one judge against
one event (its registrations and matches). -/
def validate_judge_assignment (judge : Judge)
    (registrations : List EventRegistration) (event_matches : List MatchRec) : Bool :=
  match judge.linked_trainee with
  | none => true
  | some tid =>
    let is_registered := registrations.any
      (fun r => r.trainee.id == tid && r.status == "registered")
    let is_competitor := event_matches.any
      (fun m => (m.competitor1_id == tid || m.competitor2_id == tid) && m.status != "cancelled")
    !(is_registered || is_competitor)

/-- MatchJudge row: the judge assignment of a match. -/
structure MatchJudge where
  match_id : Nat
  judge_id : Nat
deriving DecidableEq

/-- Validation loop of assign_judges: look each judge up and validate in
order; none models the Judge.DoesNotExist exception. -/
def validate_all (judges : List Judge) (registrations : List EventRegistration)
    (event_matches : List MatchRec) : List Nat → Option Bool
  | [] => some true
  | jid :: rest =>
    match judges.find? (fun j => j.id == jid) with
    | none => none
    | some j =>
      if validate_judge_assignment j registrations event_matches then
        validate_all judges registrations event_matches rest
      else some false

/-- MatchmakingService.assign_judges for one match: reject fewer than
MIN_JUDGES_REQUIRED, validate every judge, and only then replace the
assignments of the match; none models a propagated exception. -/
def assign_judges (judges : List Judge) (registrations : List EventRegistration)
    (event_matches : List MatchRec) (assignments : List MatchJudge)
    (match_id : Nat) (judge_ids : List Nat) : Option (Bool × List MatchJudge) :=
  if judge_ids.length < MIN_JUDGES_REQUIRED then some (false, assignments)
  else match validate_all judges registrations event_matches judge_ids with
    | none => none
    | some false => some (false, assignments)
    | some true =>
      some (true, (assignments.filter (fun a => !(a.match_id == match_id))) ++
        judge_ids.map (fun jid => { match_id := match_id, judge_id := jid }))

/-- TraineePoints row (core.models.TraineePoints): per-trainee totals. -/
structure TraineePointsR where
  trainee : Nat
  total_points : Int
  wins : Int
  losses : Int
deriving DecidableEq

/-- BeltRankThreshold row: points required to reach a belt rank. -/
structure BeltRankThresholdR where
  belt_rank : String
  points_required : Int
deriving DecidableEq

/-- BeltRankProgress row: one promotion audit entry. -/
structure BeltRankProgressR where
  trainee : Nat
  old_belt_rank : String
  new_belt_rank : String
  points_earned : Int
  promotion_type : String
deriving DecidableEq

/-- Leaderboard row keyed by (trainee, timeframe, year, month). -/
structure LeaderboardR where
  trainee : Nat
  rank : Nat
  points : Int
  timeframe : String
  belt_rank : String
  year : Option Int
  month : Option Int
deriving DecidableEq

/-- Match row of core.models.Match as the result path writes it. -/
structure MatchRow where
  id : Nat
  competitor1 : Nat
  competitor2 : Nat
  winner : Option Nat
  status : String
deriving DecidableEq

/-- MatchResult row: pk is none before the first save (is_new test of
MatchResult.save); match_id is the one-to-one key; winner the declared
winner. -/
structure MatchResultR where
  pk : Option Nat
  match_id : Nat
  winner : Nat
deriving DecidableEq

/-- Database state touched by the result-recording chain. -/
structure DB where
  trainees : List Trainee
  points : List TraineePointsR
  thresholds : List BeltRankThresholdR
  progress : List BeltRankProgressR
  leaderboard : List LeaderboardR
  bouts : List MatchRow
  results : List MatchResultR
deriving DecidableEq

/-- Lookup of the TraineePoints row of a trainee. -/
def findPoints (l : List TraineePointsR) (tid : Nat) : Option TraineePointsR :=
  l.find? (fun p => p.trainee == tid)

/-- TraineePoints.objects.get_or_create read half: the existing row or a
fresh default row (all counters 0). -/
def getOrCreatePoints (l : List TraineePointsR) (tid : Nat) : TraineePointsR :=
  (findPoints l tid).getD { trainee := tid, total_points := 0, wins := 0, losses := 0 }

/-- TraineePoints.objects.get_or_create write half: insert the default
row when none exists. -/
def ensurePoints (l : List TraineePointsR) (tid : Nat) : List TraineePointsR :=
  if (findPoints l tid).isSome then l
  else l ++ [{ trainee := tid, total_points := 0, wins := 0, losses := 0 }]

/-- Save of a TraineePoints instance: replace the row of the same
trainee (append when absent). -/
def upsertPoints : List TraineePointsR → TraineePointsR → List TraineePointsR
  | [], tp => [tp]
  | p :: ps, tp => if p.trainee == tp.trainee then tp :: ps else p :: upsertPoints ps tp

/-- Trainee.save after a belt change: update the belt of the trainee
row. -/
def setTraineeBelt (l : List Trainee) (tid : Nat) (belt : String) : List Trainee :=
  l.map (fun t => if t.id == tid then { t with belt_rank := belt } else t)

/-- TraineePoints.check_belt_rank_promotion: when the trainee is not at
the top rank, the next rank has a configured threshold and the total
reaches it, advance the trainee one rank and append an automatic
BeltRankProgress entry; otherwise change nothing.  An unknown belt rank
raises ValueError in models.py; the caller catches every exception
(models.py 314-316), and the raising behaviour is modelled by the
failure oracle of matchResultSave_f, so the pure function returns the
state unchanged there. -/
def check_belt_rank_promotion (db : DB) (tp : TraineePointsR) : DB :=
  match db.trainees.find? (fun t => t.id == tp.trainee) with
  | none => db
  | some tr =>
    match listIndexOf tr.belt_rank BELT_ORDER with
    | none => db
    | some current_belt_index =>
      if current_belt_index < BELT_ORDER.length - 1 then
        let next_belt := BELT_ORDER.getD (current_belt_index + 1) ""
        match db.thresholds.find? (fun th => th.belt_rank == next_belt) with
        | none => db
        | some threshold =>
          if threshold.points_required ≤ tp.total_points then
            { db with
                trainees := setTraineeBelt db.trainees tp.trainee next_belt
                progress := db.progress ++
                  [{ trainee := tp.trainee
                     old_belt_rank := BELT_ORDER.getD current_belt_index ""
                     new_belt_rank := next_belt
                     points_earned := tp.total_points
                     promotion_type := "automatic" }] }
          else db
      else db

/-- TraineePoints.add_win on an in-memory row: 30 points and one win,
save, then the promotion check. -/
def add_win (db : DB) (tp : TraineePointsR) : DB :=
  let tp2 : TraineePointsR :=
    { tp with total_points := tp.total_points + 30, wins := tp.wins + 1 }
  let db2 := { db with points := upsertPoints db.points tp2 }
  check_belt_rank_promotion db2 tp2

/-- TraineePoints.add_loss on an in-memory row: 10 points and one loss,
save, then the promotion check. -/
def add_loss (db : DB) (tp : TraineePointsR) : DB :=
  let tp2 : TraineePointsR :=
    { tp with total_points := tp.total_points + 10, losses := tp.losses + 1 }
  let db2 := { db with points := upsertPoints db.points tp2 }
  check_belt_rank_promotion db2 tp2

/-- Belt rank of a trainee row (tp.trainee.belt_rank in the leaderboard
loops). -/
def beltOf (l : List Trainee) (tid : Nat) : String :=
  ((l.find? (fun t => t.id == tid)).map (fun t => t.belt_rank)).getD ""

/-- Leaderboard.objects.update_or_create keyed by
(trainee, timeframe, year, month). -/
def lbUpsert : List LeaderboardR → LeaderboardR → List LeaderboardR
  | [], e => [e]
  | x :: xs, e =>
    if x.trainee == e.trainee && x.timeframe == e.timeframe &&
        x.year == e.year && x.month == e.month then e :: xs
    else x :: lbUpsert xs e

/-- Ranking loop shared by the three timeframe branches of
_update_timeframe_leaderboard: for rank, tp in enumerate(points, start),
upsert one leaderboard row per trainee under the given timeframe key. -/
def lb_rank_loop (trainees : List Trainee) (timeframe : String)
    (year month : Option Int) (lb : List LeaderboardR) (rank : Nat) :
    List TraineePointsR → List LeaderboardR
  | [] => lb
  | tp :: rest =>
    lb_rank_loop trainees timeframe year month
      (lbUpsert lb
        { trainee := tp.trainee
          rank := rank
          points := tp.total_points
          timeframe := timeframe
          belt_rank := beltOf trainees tp.trainee
          year := year
          month := month }) (rank + 1) rest

/-- MatchResult._update_timeframe_leaderboard: each branch sorts every
TraineePoints row descending by total_points (order_by with
-total_points) and writes ranks 1..N under its own timeframe key; the
yearly and monthly branches do not filter by date. -/
def update_timeframe_leaderboard (db : DB) (timeframe : String)
    (year month : Int) : DB :=
  match timeframe with
  | "all_time" =>
    let trainees_points :=
      stableSort (fun a b => decide (b.total_points ≤ a.total_points)) db.points
    { db with leaderboard :=
        lb_rank_loop db.trainees "all_time" none none db.leaderboard 1 trainees_points }
  | "yearly" =>
    let trainees_points :=
      stableSort (fun a b => decide (b.total_points ≤ a.total_points)) db.points
    { db with leaderboard :=
        lb_rank_loop db.trainees "yearly" (some year) none db.leaderboard 1 trainees_points }
  | "monthly" =>
    let trainees_points :=
      stableSort (fun a b => decide (b.total_points ≤ a.total_points)) db.points
    { db with leaderboard :=
        lb_rank_loop db.trainees "monthly" (some year) (some month) db.leaderboard 1 trainees_points }
  | _ => db

/-- MatchResult._update_leaderboards: all-time, then yearly, then
monthly, with the current year and month. -/
def update_leaderboards (db : DB) (year month : Int) : DB :=
  let db1 := update_timeframe_leaderboard db "all_time" year month
  let db2 := update_timeframe_leaderboard db1 "yearly" year month
  update_timeframe_leaderboard db2 "monthly" year month

/-- Steps of the points-award chain that can raise inside the
try/except of MatchResult._award_match_points. -/
inductive AwardStep
  | winAward
  | lossAward
  | leaderboards
deriving DecidableEq

/-- MatchResult._award_match_points with a failure oracle: failAt names
the chain step whose first database access raises (any exception is
caught by the bare except of models.py 314-316, which merely prints),
so the state reached before that step is kept and later steps are
skipped. -/
def award_match_points_f (db : DB) (r : MatchResultR) (failAt : Option AwardStep)
    (year month : Int) : DB :=
  match db.bouts.find? (fun m => m.id == r.match_id) with
  | none => db
  | some m =>
    let winner_points := getOrCreatePoints db.points r.winner
    let db1 := { db with points := ensurePoints db.points r.winner }
    let loser := if m.competitor2 == r.winner then m.competitor1 else m.competitor2
    let loser_points := getOrCreatePoints db1.points loser
    let db2 := { db1 with points := ensurePoints db1.points loser }
    if failAt == some AwardStep.winAward then db2
    else
      let db3 := add_win db2 winner_points
      if failAt == some AwardStep.lossAward then db3
      else
        let db4 := add_loss db3 loser_points
        if failAt == some AwardStep.leaderboards then db4
        else update_leaderboards db4 year month

/-- Django save of the MatchResult row itself (super().save()): an
insert when pk is none, rejected (none, IntegrityError) when a result
for the match already exists by the one-to-one constraint; an update of
the stored row otherwise. -/
def saveResultRow (l : List MatchResultR) (r : MatchResultR) : Option (List MatchResultR) :=
  match r.pk with
  | none =>
    if l.any (fun x => x.match_id == r.match_id) then none
    else some (l ++ [{ r with pk := some r.match_id }])
  | some k => some (l.map (fun x => if x.pk == some k then { r with pk := some k } else x))

/-- MatchResult.save with the failure oracle: store the result row,
set the winner and completed status on the match, and award points only
when the result is new; none models the propagated IntegrityError of a
duplicate insert, before any effect. -/
def matchResultSave_f (db : DB) (r : MatchResultR) (failAt : Option AwardStep)
    (year month : Int) : Option DB :=
  let is_new := r.pk.isNone
  match saveResultRow db.results r with
  | none => none
  | some rs =>
    let db0 := { db with results := rs }
    let db1 := { db0 with bouts := (db0.bouts.map
        (fun m => if m.id == r.match_id then
          { m with winner := some r.winner, status := "completed" } else m)) }
    some (if is_new then award_match_points_f db1 r failAt year month else db1)

/-- MatchResult.save on the failure-free path. -/
def matchResultSave (db : DB) (r : MatchResultR) (year month : Int) : Option DB :=
  matchResultSave_f db r none year month

theorem qabs_eq_abs (x : ℚ) : qabs x = |x| := by
  unfold qabs
  rcases lt_or_ge x 0 with h | h
  · rw [if_pos h, abs_of_neg h]
  · rw [if_neg (not_lt.mpr h), abs_of_nonneg h]

theorem listIndexOf_getD {x : String} {l : List String} {i : Nat}
    (h : listIndexOf x l = some i) : l.getD i "" = x := by
  induction l generalizing i with
  | nil => simp [listIndexOf] at h
  | cons y ys ih =>
    rw [listIndexOf] at h
    by_cases hy : y == x
    · rw [if_pos hy] at h
      cases h
      simpa using (eq_of_beq hy)
    · rw [if_neg hy] at h
      cases hrec : listIndexOf x ys with
      | none => rw [hrec] at h; simp at h
      | some k =>
        rw [hrec] at h
        simp only [Option.map_some'] at h
        cases h
        simpa using ih hrec

theorem are_belts_adjacent_iff (b1 b2 : String) :
    are_belts_adjacent b1 b2 = true ↔
      ∃ i j : Nat, listIndexOf b1 BELT_ORDER = some i ∧
        listIndexOf b2 BELT_ORDER = some j ∧ |(i : ℤ) - (j : ℤ)| ≤ 1 := by
  unfold are_belts_adjacent get_belt_index
  cases h1 : listIndexOf b1 BELT_ORDER with
  | none =>
    simp only [h1]
    constructor
    · intro h; simp at h
    · rintro ⟨i, j, hi, _⟩; cases hi
  | some i =>
    cases h2 : listIndexOf b2 BELT_ORDER with
    | none =>
      simp only [h1, h2]
      constructor
      · intro h; simp at h
      · rintro ⟨i2, j2, _, hj, _⟩; cases hj
    | some j =>
      simp only [h1, h2]
      have hne1 : ((i : ℤ) == -1) = false := by
        simp only [beq_eq_false_iff_ne, ne_eq]
        omega
      have hne2 : ((j : ℤ) == -1) = false := by
        simp only [beq_eq_false_iff_ne, ne_eq]
        omega
      rw [hne1, hne2]
      simp only [Bool.or_self, if_false, Bool.false_eq_true, decide_eq_true_eq]
      constructor
      · intro h
        refine ⟨i, j, rfl, rfl, ?_⟩
        rw [Int.abs_eq_natAbs]
        omega
      · rintro ⟨i2, j2, hi2, hj2, habs⟩
        cases hi2; cases hj2
        rw [Int.abs_eq_natAbs] at habs
        omega

/-- Claim C6: a pair is eligible exactly when the weight gap is at most
5 kg, both ranks occur in the 7-level list at index distance at most 1,
and, whenever both ages are known, the age gap is at most 3 years (a
missing age never disqualifies). -/
theorem C6_eligible_iff (t1 t2 : Trainee) :
    is_valid_pairing t1 t2 = true ↔
      (|t1.weight - t2.weight| ≤ 5 ∧
       (∃ i j : Nat, listIndexOf t1.belt_rank BELT_ORDER = some i ∧
          listIndexOf t2.belt_rank BELT_ORDER = some j ∧ |(i : ℤ) - (j : ℤ)| ≤ 1) ∧
       ∀ a1 a2 : ℤ, t1.age = some a1 → t2.age = some a2 → |a1 - a2| ≤ 3) := by
  unfold is_valid_pairing
  rw [qabs_eq_abs]
  by_cases hw : |t1.weight - t2.weight| > MAX_WEIGHT_DIFF
  · rw [if_pos hw]
    constructor
    · intro h; simp at h
    · rintro ⟨hle, _, _⟩
      exact absurd hle (not_le.mpr hw)
  · rw [if_neg hw]
    have hwle : |t1.weight - t2.weight| ≤ 5 := not_lt.mp hw
    by_cases hadj : are_belts_adjacent t1.belt_rank t2.belt_rank = true
    · rw [if_neg (by simpa using hadj)]
      cases ha1 : t1.age with
      | none =>
        simp only [ha1]
        constructor
        · intro _
          exact ⟨hwle, (are_belts_adjacent_iff _ _).mp hadj, by intro a1 a2 h _; cases h⟩
        · intro _; trivial
      | some a1 =>
        cases ha2 : t2.age with
        | none =>
          simp only [ha2]
          constructor
          · intro _
            exact ⟨hwle, (are_belts_adjacent_iff _ _).mp hadj, by intro x y _ h; cases h⟩
          · intro _; trivial
        | some a2 =>
          simp only [ha2]
          by_cases hage : (a1 - a2).natAbs > MAX_AGE_DIFF
          · rw [if_pos hage]
            constructor
            · intro h; simp at h
            · rintro ⟨_, _, hages⟩
              have := hages a1 a2 rfl rfl
              rw [Int.abs_eq_natAbs] at this
              unfold MAX_AGE_DIFF at hage
              omega
          · rw [if_neg hage]
            constructor
            · intro _
              refine ⟨hwle, (are_belts_adjacent_iff _ _).mp hadj, ?_⟩
              intro x y hx hy
              cases hx; cases hy
              rw [Int.abs_eq_natAbs]
              unfold MAX_AGE_DIFF at hage
              omega
            · intro _; rfl
    · rw [if_pos (by simpa using hadj)]
      constructor
      · intro h; simp at h
      · rintro ⟨_, hadj2, _⟩
        exact absurd ((are_belts_adjacent_iff _ _).mpr hadj2) hadj

/-- Claim C4, counterexample: with one missing age the source adds the
age of the other competitor (abs of age or 0), not a 0 term, so the
claimed formula with a 0 age term fails on this pair. -/
theorem C4_missing_age_counterexample :
    (Trainee.mk 7 "green" 60 none).age = none ∧
    calculate_pairing_score (Trainee.mk 7 "green" 60 none) (Trainee.mk 8 "green" 60 (some 40)) ≠
      qabs ((Trainee.mk 7 "green" 60 none).weight - (Trainee.mk 8 "green" 60 (some 40)).weight) * 2 +
      ((get_belt_index (Trainee.mk 7 "green" 60 none).belt_rank -
        get_belt_index (Trainee.mk 8 "green" 60 (some 40)).belt_rank).natAbs : ℚ) * 3 + 0 := by
  refine ⟨rfl, ?_⟩
  norm_num [calculate_pairing_score, qabs, get_belt_index, listIndexOf, BELT_ORDER]

/-- Claim C4 as amended: the score is the weighted sum with multipliers
2, 3 and 1, where the age term substitutes 0 for a missing age, so it
equals the absolute age of the other competitor when exactly one age is
missing and 0 only when both are missing. -/
theorem C4_score_formula (t1 t2 : Trainee) :
    calculate_pairing_score t1 t2 =
      qabs (t1.weight - t2.weight) * 2 +
      ((get_belt_index t1.belt_rank - get_belt_index t2.belt_rank).natAbs : ℚ) * 3 +
      (match t1.age, t2.age with
       | some a1, some a2 => (((a1 - a2).natAbs : ℚ))
       | some a1, none => ((a1.natAbs : ℚ))
       | none, some a2 => ((a2.natAbs : ℚ))
       | none, none => 0) := by
  unfold calculate_pairing_score
  cases t1.age <;> cases t2.age <;> simp [Option.getD]

/-- Competitor A of the scenario of claim C5: 60 kg, rank index 2, age
20. -/
def trA : Trainee := { id := 1, belt_rank := "orange", weight := 60, age := some 20 }

/-- Competitor B of the scenario of claim C5: 62 kg, rank index 2, age
21. -/
def trB : Trainee := { id := 2, belt_rank := "orange", weight := 62, age := some 21 }

/-- Competitor C of the scenario of claim C5: 61 kg, rank index 3, age
40. -/
def trC : Trainee := { id := 3, belt_rank := "green", weight := 61, age := some 40 }

/-- Index of the orange belt in the fixed order. -/
theorem gbi_orange : get_belt_index "orange" = 2 := rfl

/-- Index of the green belt in the fixed order. -/
theorem gbi_green : get_belt_index "green" = 3 := rfl

/-- Orange is adjacent to orange. -/
theorem adj_oo : are_belts_adjacent "orange" "orange" = true := rfl

/-- Orange is adjacent to green. -/
theorem adj_og : are_belts_adjacent "orange" "green" = true := rfl

/-- Claim C5, counterexample: the pair A-C is not eligible, against the
claim that it is eligible via rank adjacency; its age gap of 20 years
exceeds the 3-year constraint (its score would have been 25). -/
theorem C5_scenario_counterexample :
    is_valid_pairing trA trC = false ∧ calculate_pairing_score trA trC = 25 := by
  constructor
  · norm_num [is_valid_pairing, qabs, MAX_WEIGHT_DIFF, MAX_AGE_DIFF, adj_og, trA, trC]
  · norm_num [calculate_pairing_score, qabs, gbi_orange, gbi_green, Option.getD, trA, trC]

/-- Claim C5 as amended: A-B is eligible with score 5; A-C satisfies
rank adjacency but is ineligible because the age gap 20 exceeds 3; the
auto-matchmaker over registered A, B, C returns exactly the pair A-B,
leaving C unmatched. -/
theorem C5_scenario :
    is_valid_pairing trA trB = true ∧
    calculate_pairing_score trA trB = 5 ∧
    are_belts_adjacent trA.belt_rank trC.belt_rank = true ∧
    is_valid_pairing trA trC = false ∧
    auto_match [{ trainee := trA, status := "registered" },
        { trainee := trB, status := "registered" },
        { trainee := trC, status := "registered" }] [] =
      [{ competitor1 := trA, competitor2 := trB, weight_diff := 2, belt_diff := 0,
         age_diff := 1, score := 5 }] := by
  have hAB : is_valid_pairing trA trB = true := by
    norm_num [is_valid_pairing, qabs, MAX_WEIGHT_DIFF, MAX_AGE_DIFF, adj_oo, trA, trB]
  have hAC : is_valid_pairing trA trC = false := by
    norm_num [is_valid_pairing, qabs, MAX_WEIGHT_DIFF, MAX_AGE_DIFF, adj_og, trA, trC]
  have hBC : is_valid_pairing trB trC = false := by
    norm_num [is_valid_pairing, qabs, MAX_WEIGHT_DIFF, MAX_AGE_DIFF, adj_og, trB, trC]
  have hsAB : calculate_pairing_score trA trB = 5 := by
    norm_num [calculate_pairing_score, qabs, gbi_orange, Option.getD, trA, trB]
  have hWD : qabs (trA.weight - trB.weight) = 2 := by norm_num [qabs, trA, trB]
  have hBD : (get_belt_index trA.belt_rank - get_belt_index trB.belt_rank).natAbs = 0 := rfl
  have hAD : ((trA.age.getD 0) - (trB.age.getD 0)).natAbs = 1 := rfl
  refine ⟨hAB, hsAB, rfl, hAC, ?_⟩
  simp only [auto_match, pairsOf, List.filter, List.map, List.flatMap, String.reduceEq,
    List.contains, List.elem, hAB, hAC, hBC, hsAB, stableSort, insertSorted, greedy_select]
  simp [hWD, hBD, hAD]

/-- Claim C7: judge assignment validation accepts any official without a
linked competitor identity, and otherwise rejects exactly when that
identity is registered for the event or stands on either side of a
non-cancelled bout of the event. -/
theorem C7_conflict_rule (j : Judge) (regs : List EventRegistration)
    (ms : List MatchRec) :
    (j.linked_trainee = none → validate_judge_assignment j regs ms = true) ∧
    (∀ tid : Nat, j.linked_trainee = some tid →
      (validate_judge_assignment j regs ms = false ↔
        ((∃ r ∈ regs, r.trainee.id = tid ∧ r.status = "registered") ∨
         (∃ m ∈ ms, (m.competitor1_id = tid ∨ m.competitor2_id = tid) ∧
           m.status ≠ "cancelled")))) := by
  constructor
  · intro h
    simp [validate_judge_assignment, h]
  · intro tid h
    simp only [validate_judge_assignment, h]
    constructor
    · intro hv
      have hx : (regs.any (fun r => r.trainee.id == tid && r.status == "registered") ||
          ms.any (fun m => (m.competitor1_id == tid || m.competitor2_id == tid) &&
            m.status != "cancelled")) = true := by
        cases hr : (regs.any (fun r => r.trainee.id == tid && r.status == "registered") ||
            ms.any (fun m => (m.competitor1_id == tid || m.competitor2_id == tid) &&
              m.status != "cancelled")) with
        | true => rfl
        | false => rw [hr] at hv; simp at hv
      rcases Bool.or_eq_true _ _ |>.mp hx with hreg | hcomp
      · left
        rcases List.any_eq_true.mp hreg with ⟨r, hrmem, hrp⟩
        rcases Bool.and_eq_true _ _ |>.mp hrp with ⟨h1, h2⟩
        exact ⟨r, hrmem, eq_of_beq h1, eq_of_beq h2⟩
      · right
        rcases List.any_eq_true.mp hcomp with ⟨m, hmmem, hmp⟩
        rcases Bool.and_eq_true _ _ |>.mp hmp with ⟨h1, h2⟩
        refine ⟨m, hmmem, ?_, ?_⟩
        · rcases Bool.or_eq_true _ _ |>.mp h1 with h1a | h1b
          · exact Or.inl (eq_of_beq h1a)
          · exact Or.inr (eq_of_beq h1b)
        · simpa using h2
    · intro hcase
      have : (regs.any (fun r => r.trainee.id == tid && r.status == "registered") ||
          ms.any (fun m => (m.competitor1_id == tid || m.competitor2_id == tid) &&
            m.status != "cancelled")) = true := by
        rcases hcase with ⟨r, hrmem, hr1, hr2⟩ | ⟨m, hmmem, hm1, hm2⟩
        · refine Bool.or_eq_true _ _ |>.mpr (Or.inl ?_)
          refine List.any_eq_true.mpr ⟨r, hrmem, ?_⟩
          rw [hr1, hr2]
          simp
        · refine Bool.or_eq_true _ _ |>.mpr (Or.inr ?_)
          refine List.any_eq_true.mpr ⟨m, hmmem, ?_⟩
          refine Bool.and_eq_true _ _ |>.mpr ⟨?_, ?_⟩
          · rcases hm1 with hm1a | hm1b
            · exact Bool.or_eq_true _ _ |>.mpr (Or.inl (by rw [hm1a]; simp))
            · exact Bool.or_eq_true _ _ |>.mpr (Or.inr (by rw [hm1b]; simp))
          · simpa using hm2
      rw [this]
      rfl

/-- Judge of the witness of claim C7, linked to trainee 9. -/
def c7judge : Judge := { id := 5, linked_trainee := some 9 }

/-- Event registrations of the witness of claim C7: trainee 9 is
registered. -/
def c7regs : List EventRegistration :=
  [{ trainee := { id := 9, belt_rank := "white", weight := 60, age := none }, status := "registered" }]

/-- Witness for claim C7: the linked official is rejected for the event
where trainee 9 is registered and accepted for an event without
registrations or bouts. -/
theorem C7_conflict_rule_witness :
    validate_judge_assignment c7judge c7regs [] = false ∧
    validate_judge_assignment c7judge [] [] = true := by
  constructor
  · exact ((C7_conflict_rule c7judge c7regs []).2 9 rfl).mpr
      (Or.inl ⟨_, List.mem_singleton.mpr rfl, rfl, rfl⟩)
  · have h := (C7_conflict_rule c7judge [] []).2 9 rfl
    cases hv : validate_judge_assignment c7judge [] [] with
    | false =>
      exfalso
      rcases h.mp hv with ⟨r, hr, _⟩ | ⟨m, hm, _⟩
      · simp at hr
      · simp at hm
    | true => rfl

theorem validate_all_eq_false (judges : List Judge) (regs : List EventRegistration)
    (ems : List MatchRec) (ids : List Nat)
    (hres : ∀ jid ∈ ids, ∃ j, judges.find? (fun x => x.id == jid) = some j)
    (hfail : ∃ jid ∈ ids, ∃ j, judges.find? (fun x => x.id == jid) = some j ∧
      validate_judge_assignment j regs ems = false) :
    validate_all judges regs ems ids = some false := by
  induction ids with
  | nil => rcases hfail with ⟨jid, h, _⟩; cases h
  | cons x rest ih =>
    obtain ⟨jx, hjx⟩ := hres x (List.mem_cons_self x rest)
    rw [validate_all, hjx]
    show (if validate_judge_assignment jx regs ems = true then
      validate_all judges regs ems rest else some false) = some false
    by_cases hv : validate_judge_assignment jx regs ems = true
    · rw [if_pos hv]
      refine ih (fun jid h => hres jid (List.mem_cons_of_mem x h)) ?_
      rcases hfail with ⟨jid, hmem, j, hj, hjv⟩
      rcases List.mem_cons.mp hmem with rfl | hmem2
      · rw [hjx] at hj
        cases hj
        rw [hv] at hjv
        cases hjv
      · exact ⟨jid, hmem2, j, hj, hjv⟩
    · rw [if_neg hv]

theorem validate_all_eq_true (judges : List Judge) (regs : List EventRegistration)
    (ems : List MatchRec) (ids : List Nat)
    (hok : ∀ jid ∈ ids, ∃ j, judges.find? (fun x => x.id == jid) = some j ∧
      validate_judge_assignment j regs ems = true) :
    validate_all judges regs ems ids = some true := by
  induction ids with
  | nil => rfl
  | cons x rest ih =>
    obtain ⟨jx, hjx, hv⟩ := hok x (List.mem_cons_self x rest)
    rw [validate_all, hjx]
    show (if validate_judge_assignment jx regs ems = true then
      validate_all judges regs ems rest else some false) = some true
    rw [if_pos hv]
    exact ih (fun jid h => hok jid (List.mem_cons_of_mem x h))

theorem filter_key_of_filter_not_key (l : List MatchJudge) (mid : Nat) :
    (l.filter (fun a => !(a.match_id == mid))).filter (fun a => a.match_id == mid) = [] := by
  induction l with
  | nil => rfl
  | cons a rest ih =>
    by_cases ha : (a.match_id == mid) = true
    · simp only [List.filter, ha, Bool.not_true]
      exact ih
    · have ha2 : (a.match_id == mid) = false := by
        cases hb : (a.match_id == mid) with
        | true => exact absurd hb ha
        | false => rfl
      simp only [List.filter, ha2, Bool.not_false]
      exact ih

theorem filter_not_key_idem (l : List MatchJudge) (mid : Nat) :
    (l.filter (fun a => !(a.match_id == mid))).filter (fun a => !(a.match_id == mid)) =
      l.filter (fun a => !(a.match_id == mid)) := by
  induction l with
  | nil => rfl
  | cons a rest ih =>
    by_cases ha : (a.match_id == mid) = true
    · simp only [List.filter, ha, Bool.not_true]
      exact ih
    · have ha2 : (a.match_id == mid) = false := by
        cases hb : (a.match_id == mid) with
        | true => exact absurd hb ha
        | false => rfl
      simp only [List.filter, ha2, Bool.not_false]
      rw [ih]

theorem filter_key_map_assignments (mid : Nat) (ids : List Nat) :
    (ids.map (fun jid => MatchJudge.mk mid jid)).filter (fun a => a.match_id == mid) =
      ids.map (fun jid => MatchJudge.mk mid jid) := by
  induction ids with
  | nil => rfl
  | cons x rest ih =>
    simp only [List.map, List.filter, beq_self_eq_true]
    rw [ih]

theorem filter_not_key_map_assignments (mid : Nat) (ids : List Nat) :
    (ids.map (fun jid => MatchJudge.mk mid jid)).filter (fun a => !(a.match_id == mid)) = [] := by
  induction ids with
  | nil => rfl
  | cons x rest ih =>
    simp only [List.map, List.filter, beq_self_eq_true, Bool.not_true]
    exact ih

/-- Claim C8: a judge-assignment batch of fewer than three officials, or
one whose officials do not all pass the conflict check, is rejected with
the existing assignments of the bout untouched; a passing batch of at
least three fully replaces the assignments of the bout by exactly the
given set, leaving other bouts untouched. -/
theorem C8_assign_judges (judges : List Judge) (regs : List EventRegistration)
    (ems : List MatchRec) (assignments : List MatchJudge) (match_id : Nat)
    (judge_ids : List Nat) :
    (judge_ids.length < MIN_JUDGES_REQUIRED →
      assign_judges judges regs ems assignments match_id judge_ids =
        some (false, assignments)) ∧
    ((∀ jid ∈ judge_ids, ∃ j, judges.find? (fun x => x.id == jid) = some j) →
     (∃ jid ∈ judge_ids, ∃ j, judges.find? (fun x => x.id == jid) = some j ∧
        validate_judge_assignment j regs ems = false) →
      assign_judges judges regs ems assignments match_id judge_ids =
        some (false, assignments)) ∧
    (MIN_JUDGES_REQUIRED ≤ judge_ids.length →
     (∀ jid ∈ judge_ids, ∃ j, judges.find? (fun x => x.id == jid) = some j ∧
        validate_judge_assignment j regs ems = true) →
      (assign_judges judges regs ems assignments match_id judge_ids =
        some (true, (assignments.filter (fun a => !(a.match_id == match_id))) ++
          judge_ids.map (fun jid => MatchJudge.mk match_id jid)) ∧
       ((assignments.filter (fun a => !(a.match_id == match_id))) ++
          judge_ids.map (fun jid => MatchJudge.mk match_id jid)).filter
            (fun a => a.match_id == match_id) =
          judge_ids.map (fun jid => MatchJudge.mk match_id jid) ∧
       ((assignments.filter (fun a => !(a.match_id == match_id))) ++
          judge_ids.map (fun jid => MatchJudge.mk match_id jid)).filter
            (fun a => !(a.match_id == match_id)) =
          assignments.filter (fun a => !(a.match_id == match_id)))) := by
  refine ⟨?_, ?_, ?_⟩
  · intro hlen
    rw [assign_judges, if_pos hlen]
  · intro hres hfail
    rw [assign_judges]
    by_cases hlen : judge_ids.length < MIN_JUDGES_REQUIRED
    · rw [if_pos hlen]
    · rw [if_neg hlen, validate_all_eq_false judges regs ems judge_ids hres hfail]
  · intro hlen hok
    have hnl : ¬ judge_ids.length < MIN_JUDGES_REQUIRED := not_lt.mpr hlen
    refine ⟨?_, ?_, ?_⟩
    · rw [assign_judges, if_neg hnl, validate_all_eq_true judges regs ems judge_ids hok]
    · rw [List.filter_append, filter_key_of_filter_not_key,
        filter_key_map_assignments, List.nil_append]
    · rw [List.filter_append, filter_not_key_idem,
        filter_not_key_map_assignments, List.append_nil]

/-- Judges of the witness of claim C8: three officials without linked
competitor identities. -/
def c8judges : List Judge :=
  [{ id := 1, linked_trainee := none }, { id := 2, linked_trainee := none },
   { id := 3, linked_trainee := none }]

/-- Prior assignments of the witness of claim C8: one entry of bout 77
and one of bout 50. -/
def c8assignments : List MatchJudge :=
  [{ match_id := 77, judge_id := 9 }, { match_id := 50, judge_id := 4 }]

/-- Witness for claim C8: a two-official batch is rejected leaving the
assignments untouched, and a passing three-official batch replaces the
assignments of bout 77 while keeping the entry of bout 50. -/
theorem C8_assign_judges_witness :
    assign_judges c8judges [] [] c8assignments 77 [1, 2] = some (false, c8assignments) ∧
    assign_judges c8judges [] [] c8assignments 77 [1, 2, 3] =
      some (true, [{ match_id := 50, judge_id := 4 }, { match_id := 77, judge_id := 1 },
        { match_id := 77, judge_id := 2 }, { match_id := 77, judge_id := 3 }]) := by
  constructor
  · exact (C8_assign_judges c8judges [] [] c8assignments 77 [1, 2]).1 (by decide)
  · have hok : ∀ jid ∈ [1, 2, 3], ∃ j, c8judges.find? (fun x => x.id == jid) = some j ∧
        validate_judge_assignment j [] [] = true := by
      intro jid hmem
      rcases List.mem_cons.mp hmem with rfl | hmem2
      · exact ⟨{ id := 1, linked_trainee := none }, rfl, rfl⟩
      rcases List.mem_cons.mp hmem2 with rfl | hmem3
      · exact ⟨{ id := 2, linked_trainee := none }, rfl, rfl⟩
      rcases List.mem_cons.mp hmem3 with rfl | hmem4
      · exact ⟨{ id := 3, linked_trainee := none }, rfl, rfl⟩
      · cases hmem4
    have h := ((C8_assign_judges c8judges [] [] c8assignments 77 [1, 2, 3]).2.2
      (by decide) hok).1
    rw [h]
    decide

theorem findq_cons_pos {α : Type} (q : α → Bool) (a : α) (l : List α) (h : q a = true) :
    List.find? q (a :: l) = some a := by
  rw [List.find?_cons, h]

theorem findq_cons_neg {α : Type} (q : α → Bool) (a : α) (l : List α) (h : q a = false) :
    List.find? q (a :: l) = List.find? q l := by
  rw [List.find?_cons, h]

theorem beq_false_of_ne {a b : Nat} (h : a ≠ b) : (a == b) = false := by
  cases hb : (a == b) with
  | true => exact absurd (eq_of_beq hb) h
  | false => rfl

theorem findPoints_upsert_self (l : List TraineePointsR) (tp : TraineePointsR) :
    findPoints (upsertPoints l tp) tp.trainee = some tp := by
  induction l with
  | nil =>
    exact findq_cons_pos (fun q : TraineePointsR => q.trainee == tp.trainee) tp [] (beq_self_eq_true _)
  | cons p ps ih =>
    cases hp : (p.trainee == tp.trainee) with
    | true =>
      rw [upsertPoints, if_pos hp]
      exact findq_cons_pos (fun q : TraineePointsR => q.trainee == tp.trainee) tp ps (beq_self_eq_true _)
    | false =>
      rw [upsertPoints, if_neg (by simp [hp])]
      exact (findq_cons_neg (fun q : TraineePointsR => q.trainee == tp.trainee) p (upsertPoints ps tp) hp).trans ih

theorem findPoints_upsert_self_at (l : List TraineePointsR) (tp : TraineePointsR) (tid : Nat)
    (h : tp.trainee = tid) : findPoints (upsertPoints l tp) tid = some tp := by
  rw [← h]
  exact findPoints_upsert_self l tp

theorem findPoints_upsert_ne (l : List TraineePointsR) (tp : TraineePointsR) (tid : Nat)
    (h : tid ≠ tp.trainee) :
    findPoints (upsertPoints l tp) tid = findPoints l tid := by
  have htp : (tp.trainee == tid) = false := beq_false_of_ne (fun e => h e.symm)
  induction l with
  | nil =>
    exact findq_cons_neg (fun q : TraineePointsR => q.trainee == tid) tp [] htp
  | cons p ps ih =>
    cases hp : (p.trainee == tp.trainee) with
    | true =>
      rw [upsertPoints, if_pos hp]
      have hpid : (p.trainee == tid) = false := by
        rw [eq_of_beq hp]
        exact htp
      unfold findPoints
      rw [findq_cons_neg (fun q : TraineePointsR => q.trainee == tid) tp ps htp,
        findq_cons_neg (fun q : TraineePointsR => q.trainee == tid) p ps hpid]
    | false =>
      rw [upsertPoints, if_neg (by simp [hp])]
      unfold findPoints
      cases hpid : (p.trainee == tid) with
      | true =>
        rw [findq_cons_pos (fun q : TraineePointsR => q.trainee == tid) p (upsertPoints ps tp) hpid,
          findq_cons_pos (fun q : TraineePointsR => q.trainee == tid) p ps hpid]
      | false =>
        rw [findq_cons_neg (fun q : TraineePointsR => q.trainee == tid) p (upsertPoints ps tp) hpid,
          findq_cons_neg (fun q : TraineePointsR => q.trainee == tid) p ps hpid]
        exact ih

theorem findPoints_append_of_none (l1 l2 : List TraineePointsR) (tid : Nat)
    (h : findPoints l1 tid = none) :
    findPoints (l1 ++ l2) tid = findPoints l2 tid := by
  induction l1 with
  | nil => rfl
  | cons p ps ih =>
    cases hp : (p.trainee == tid) with
    | true =>
      rw [findPoints, findq_cons_pos (fun q : TraineePointsR => q.trainee == tid) p ps hp] at h
      cases h
    | false =>
      rw [findPoints, findq_cons_neg (fun q : TraineePointsR => q.trainee == tid) p ps hp] at h
      rw [List.cons_append, findPoints,
        findq_cons_neg (fun q : TraineePointsR => q.trainee == tid) p (ps ++ l2) hp]
      exact ih h

theorem findPoints_append_of_some (l1 l2 : List TraineePointsR) (tid : Nat)
    (v : TraineePointsR) (h : findPoints l1 tid = some v) :
    findPoints (l1 ++ l2) tid = some v := by
  induction l1 with
  | nil => cases h
  | cons p ps ih =>
    cases hp : (p.trainee == tid) with
    | true =>
      rw [findPoints, findq_cons_pos (fun q : TraineePointsR => q.trainee == tid) p ps hp] at h
      rw [List.cons_append, findPoints,
        findq_cons_pos (fun q : TraineePointsR => q.trainee == tid) p (ps ++ l2) hp]
      exact h
    | false =>
      rw [findPoints, findq_cons_neg (fun q : TraineePointsR => q.trainee == tid) p ps hp] at h
      rw [List.cons_append, findPoints,
        findq_cons_neg (fun q : TraineePointsR => q.trainee == tid) p (ps ++ l2) hp]
      exact ih h

theorem findPoints_ensure_ne (l : List TraineePointsR) (tid2 tid : Nat) (h : tid ≠ tid2) :
    findPoints (ensurePoints l tid2) tid = findPoints l tid := by
  unfold ensurePoints
  by_cases hs : (findPoints l tid2).isSome = true
  · rw [if_pos hs]
  · rw [if_neg hs]
    cases hl : findPoints l tid with
    | some v => exact findPoints_append_of_some l _ tid v hl
    | none =>
      rw [findPoints_append_of_none l _ tid hl]
      exact findq_cons_neg (fun q : TraineePointsR => q.trainee == tid)
        { trainee := tid2, total_points := 0, wins := 0, losses := 0 } []
        (beq_false_of_ne (fun e => h e.symm))

theorem findPoints_ensure_self (l : List TraineePointsR) (tid : Nat) :
    findPoints (ensurePoints l tid) tid = some (getOrCreatePoints l tid) := by
  unfold ensurePoints getOrCreatePoints
  cases hl : findPoints l tid with
  | some v => simp [hl]
  | none =>
    simp only [hl, Option.isSome_none, Bool.false_eq_true, if_false, Option.getD_none]
    rw [findPoints_append_of_none l _ tid hl, findPoints]
    exact findq_cons_pos (fun q : TraineePointsR => q.trainee == tid)
      { trainee := tid, total_points := 0, wins := 0, losses := 0 } [] (beq_self_eq_true _)

theorem getOrCreate_ensure_ne (l : List TraineePointsR) (tid2 tid : Nat) (h : tid ≠ tid2) :
    getOrCreatePoints (ensurePoints l tid2) tid = getOrCreatePoints l tid := by
  unfold getOrCreatePoints
  rw [findPoints_ensure_ne l tid2 tid h]

theorem getOrCreate_trainee (l : List TraineePointsR) (tid : Nat) :
    (getOrCreatePoints l tid).trainee = tid := by
  unfold getOrCreatePoints
  cases h : findPoints l tid with
  | none => rfl
  | some v =>
    unfold findPoints at h
    simpa using (List.find?_some h)

theorem check_promo_fields (db : DB) (tp : TraineePointsR) :
    (check_belt_rank_promotion db tp).points = db.points ∧
    (check_belt_rank_promotion db tp).leaderboard = db.leaderboard ∧
    (check_belt_rank_promotion db tp).bouts = db.bouts ∧
    (check_belt_rank_promotion db tp).results = db.results := by
  unfold check_belt_rank_promotion
  dsimp only
  repeat' split
  all_goals exact ⟨rfl, rfl, rfl, rfl⟩

theorem update_tf_fields (db : DB) (tf : String) (y m : Int) :
    (update_timeframe_leaderboard db tf y m).points = db.points ∧
    (update_timeframe_leaderboard db tf y m).trainees = db.trainees ∧
    (update_timeframe_leaderboard db tf y m).progress = db.progress ∧
    (update_timeframe_leaderboard db tf y m).bouts = db.bouts ∧
    (update_timeframe_leaderboard db tf y m).results = db.results := by
  unfold update_timeframe_leaderboard
  dsimp only
  repeat' split
  all_goals exact ⟨rfl, rfl, rfl, rfl, rfl⟩

theorem update_lbs_points (db : DB) (y m : Int) :
    (update_leaderboards db y m).points = db.points := by
  unfold update_leaderboards
  rw [(update_tf_fields _ "monthly" y m).1, (update_tf_fields _ "yearly" y m).1,
    (update_tf_fields _ "all_time" y m).1]

theorem add_win_points (db : DB) (tp : TraineePointsR) :
    (add_win db tp).points =
      upsertPoints db.points
        { tp with total_points := tp.total_points + 30, wins := tp.wins + 1 } := by
  unfold add_win
  exact (check_promo_fields _ _).1

theorem add_loss_points (db : DB) (tp : TraineePointsR) :
    (add_loss db tp).points =
      upsertPoints db.points
        { tp with total_points := tp.total_points + 10, losses := tp.losses + 1 } := by
  unfold add_loss
  exact (check_promo_fields _ _).1

theorem add_win_leaderboard (db : DB) (tp : TraineePointsR) :
    (add_win db tp).leaderboard = db.leaderboard := by
  unfold add_win
  exact (check_promo_fields _ _).2.1

theorem find_setTraineeBelt (l : List Trainee) (tid : Nat) (belt : String) (tr : Trainee)
    (h : l.find? (fun t => t.id == tid) = some tr) :
    (setTraineeBelt l tid belt).find? (fun t => t.id == tid) =
      some { tr with belt_rank := belt } := by
  induction l with
  | nil => cases h
  | cons t ts ih =>
    cases ht : (t.id == tid) with
    | true =>
      rw [findq_cons_pos (fun x : Trainee => x.id == tid) t ts ht] at h
      cases h
      show List.find? (fun x : Trainee => x.id == tid)
        ((if tr.id == tid then { tr with belt_rank := belt } else tr) ::
          setTraineeBelt ts tid belt) = some { tr with belt_rank := belt }
      rw [if_pos ht]
      exact findq_cons_pos (fun x : Trainee => x.id == tid)
        { tr with belt_rank := belt } (setTraineeBelt ts tid belt) ht
    | false =>
      rw [findq_cons_neg (fun x : Trainee => x.id == tid) t ts ht] at h
      show List.find? (fun x : Trainee => x.id == tid)
        ((if t.id == tid then { t with belt_rank := belt } else t) ::
          setTraineeBelt ts tid belt) = some { tr with belt_rank := belt }
      rw [if_neg (by simp [ht])]
      exact (findq_cons_neg (fun x : Trainee => x.id == tid) t
        (setTraineeBelt ts tid belt) ht).trans (ih h)

/-- Claim C3: on a points update of a competitor not at the top rank,
when a threshold is configured for the next rank and the updated total
reaches it, the competitor advances exactly one level (to index i + 1,
never further) and an automatic BeltRankProgress entry records the
one-step transition with points_earned equal to the updated total; when
no threshold is configured for the next rank, nothing changes and no
error occurs. -/
theorem C3_promotion (db : DB) (tp : TraineePointsR) (tr : Trainee) (i : Nat)
    (htr : db.trainees.find? (fun t => t.id == tp.trainee) = some tr)
    (hidx : listIndexOf tr.belt_rank BELT_ORDER = some i)
    (htop : i < BELT_ORDER.length - 1) :
    (∀ th, db.thresholds.find? (fun x => x.belt_rank == BELT_ORDER.getD (i + 1) "") = some th →
      th.points_required ≤ tp.total_points →
      ((check_belt_rank_promotion db tp).trainees.find? (fun t => t.id == tp.trainee) =
          some { tr with belt_rank := BELT_ORDER.getD (i + 1) "" } ∧
       (check_belt_rank_promotion db tp).progress = db.progress ++
         [{ trainee := tp.trainee, old_belt_rank := tr.belt_rank,
            new_belt_rank := BELT_ORDER.getD (i + 1) "", points_earned := tp.total_points,
            promotion_type := "automatic" }])) ∧
    (db.thresholds.find? (fun x => x.belt_rank == BELT_ORDER.getD (i + 1) "") = none →
      check_belt_rank_promotion db tp = db) := by
  have hrun : check_belt_rank_promotion db tp =
      (match db.thresholds.find? (fun x => x.belt_rank == BELT_ORDER.getD (i + 1) "") with
       | none => db
       | some threshold =>
         if threshold.points_required ≤ tp.total_points then
           { db with
               trainees := setTraineeBelt db.trainees tp.trainee (BELT_ORDER.getD (i + 1) "")
               progress := db.progress ++
                 [{ trainee := tp.trainee
                    old_belt_rank := BELT_ORDER.getD i ""
                    new_belt_rank := BELT_ORDER.getD (i + 1) ""
                    points_earned := tp.total_points
                    promotion_type := "automatic" }] }
         else db) := by
    unfold check_belt_rank_promotion
    rw [htr]
    show ((match listIndexOf tr.belt_rank BELT_ORDER with
      | none => db
      | some current_belt_index =>
        if current_belt_index < BELT_ORDER.length - 1 then
          match db.thresholds.find?
              (fun th : BeltRankThresholdR =>
                th.belt_rank == BELT_ORDER.getD (current_belt_index + 1) "") with
          | none => db
          | some threshold =>
            if threshold.points_required ≤ tp.total_points then
              { db with
                  trainees := setTraineeBelt db.trainees tp.trainee
                    (BELT_ORDER.getD (current_belt_index + 1) "")
                  progress := db.progress ++
                    [{ trainee := tp.trainee
                       old_belt_rank := BELT_ORDER.getD current_belt_index ""
                       new_belt_rank := BELT_ORDER.getD (current_belt_index + 1) ""
                       points_earned := tp.total_points
                       promotion_type := "automatic" }] }
            else db
        else db : DB)) = _
    rw [hidx]
    show (if i < BELT_ORDER.length - 1 then _ else db) = _
    rw [if_pos htop]
  constructor
  · intro th hth hle
    rw [hrun, hth]
    show (if th.points_required ≤ tp.total_points then _ else db).trainees.find? _ = _ ∧
      (if th.points_required ≤ tp.total_points then _ else db).progress = _
    rw [if_pos hle]
    refine ⟨find_setTraineeBelt db.trainees tp.trainee _ tr htr, ?_⟩
    rw [listIndexOf_getD hidx]
  · intro hth
    rw [hrun, hth]

/-- Database of the first part of the witness of claim C3: one white
trainee, a threshold of 50 points configured for yellow. -/
def c3db : DB :=
  { trainees := [{ id := 1, belt_rank := "white", weight := 60, age := none }]
    points := []
    thresholds := [{ belt_rank := "yellow", points_required := 50 }]
    progress := []
    leaderboard := []
    bouts := []
    results := [] }

/-- Database of the second part of the witness of claim C3: no
threshold is configured for yellow. -/
def c3db2 : DB := { c3db with thresholds := [] }

/-- Witness for claim C3: with 60 points the white trainee is promoted
one level to yellow with an automatic audit entry, and with no yellow
threshold the promotion check changes nothing. -/
theorem C3_promotion_witness :
    (check_belt_rank_promotion c3db
        { trainee := 1, total_points := 60, wins := 2, losses := 0 }).trainees.find?
      (fun t => t.id == 1) =
        some { id := 1, belt_rank := "yellow", weight := 60, age := none } ∧
    (check_belt_rank_promotion c3db
        { trainee := 1, total_points := 60, wins := 2, losses := 0 }).progress =
      [{ trainee := 1, old_belt_rank := "white", new_belt_rank := "yellow",
         points_earned := 60, promotion_type := "automatic" }] ∧
    check_belt_rank_promotion c3db2
      { trainee := 1, total_points := 60, wins := 2, losses := 0 } = c3db2 := by
  have h := C3_promotion c3db { trainee := 1, total_points := 60, wins := 2, losses := 0 }
    { id := 1, belt_rank := "white", weight := 60, age := none } 0 rfl rfl (by decide)
  have h2 := C3_promotion c3db2 { trainee := 1, total_points := 60, wins := 2, losses := 0 }
    { id := 1, belt_rank := "white", weight := 60, age := none } 0 rfl rfl (by decide)
  obtain ⟨ha, hb⟩ := h.1 { belt_rank := "yellow", points_required := 50 } rfl (by decide)
  exact ⟨ha, by simpa using hb, h2.2 rfl⟩

theorem find_bout_update (bl : List MatchRow) (mid : Nat) (w : Nat) (mr : MatchRow)
    (h : bl.find? (fun x => x.id == mid) = some mr) :
    (bl.map (fun mm => if mm.id == mid then
        { mm with winner := some w, status := "completed" } else mm)).find?
      (fun x => x.id == mid) = some { mr with winner := some w, status := "completed" } := by
  induction bl with
  | nil => cases h
  | cons b bs ih =>
    cases hb : (b.id == mid) with
    | true =>
      rw [findq_cons_pos (fun x : MatchRow => x.id == mid) b bs hb] at h
      cases h
      show List.find? (fun x : MatchRow => x.id == mid)
        ((if mr.id == mid then { mr with winner := some w, status := "completed" } else mr) ::
          bs.map (fun mm => if mm.id == mid then
            { mm with winner := some w, status := "completed" } else mm)) =
        some { mr with winner := some w, status := "completed" }
      rw [if_pos hb]
      exact findq_cons_pos (fun x : MatchRow => x.id == mid)
        { mr with winner := some w, status := "completed" }
        (bs.map (fun mm => if mm.id == mid then
          { mm with winner := some w, status := "completed" } else mm)) hb
    | false =>
      rw [findq_cons_neg (fun x : MatchRow => x.id == mid) b bs hb] at h
      show List.find? (fun x : MatchRow => x.id == mid)
        ((if b.id == mid then { b with winner := some w, status := "completed" } else b) ::
          bs.map (fun mm => if mm.id == mid then
            { mm with winner := some w, status := "completed" } else mm)) =
        some { mr with winner := some w, status := "completed" }
      rw [if_neg (by simp [hb])]
      exact (findq_cons_neg (fun x : MatchRow => x.id == mid) b
        (bs.map (fun mm => if mm.id == mid then
          { mm with winner := some w, status := "completed" } else mm)) hb).trans (ih h)

theorem save_f_run (db : DB) (r : MatchResultR) (failAt : Option AwardStep) (y m : Int)
    (hnew : r.pk = none)
    (hnores : db.results.any (fun x => x.match_id == r.match_id) = false) :
    matchResultSave_f db r failAt y m =
      some (award_match_points_f
        { db with
            results := db.results ++ [{ r with pk := some r.match_id }]
            bouts := db.bouts.map (fun mm => if mm.id == r.match_id then
              { mm with winner := some r.winner, status := "completed" } else mm) }
        r failAt y m) := by
  unfold matchResultSave_f saveResultRow
  rw [hnew, hnores]
  rfl

theorem award_f_run (db : DB) (r : MatchResultR) (y m : Int) (mr2 : MatchRow)
    (hfind : db.bouts.find? (fun x => x.id == r.match_id) = some mr2) :
    (award_match_points_f db r none y m =
      update_leaderboards
        (add_loss
          (add_win
            { db with points := (ensurePoints (ensurePoints db.points r.winner)
                (if mr2.competitor2 == r.winner then mr2.competitor1 else mr2.competitor2)) }
            (getOrCreatePoints db.points r.winner))
          (getOrCreatePoints (ensurePoints db.points r.winner)
            (if mr2.competitor2 == r.winner then mr2.competitor1 else mr2.competitor2)))
        y m) ∧
    (award_match_points_f db r (some AwardStep.winAward) y m =
      { db with points := (ensurePoints (ensurePoints db.points r.winner)
          (if mr2.competitor2 == r.winner then mr2.competitor1 else mr2.competitor2)) }) ∧
    (award_match_points_f db r (some AwardStep.lossAward) y m =
      add_win
        { db with points := (ensurePoints (ensurePoints db.points r.winner)
            (if mr2.competitor2 == r.winner then mr2.competitor1 else mr2.competitor2)) }
        (getOrCreatePoints db.points r.winner)) ∧
    (award_match_points_f db r (some AwardStep.leaderboards) y m =
      add_loss
        (add_win
          { db with points := (ensurePoints (ensurePoints db.points r.winner)
              (if mr2.competitor2 == r.winner then mr2.competitor1 else mr2.competitor2)) }
          (getOrCreatePoints db.points r.winner))
        (getOrCreatePoints (ensurePoints db.points r.winner)
          (if mr2.competitor2 == r.winner then mr2.competitor1 else mr2.competitor2))) := by
  refine ⟨?_, ?_, ?_, ?_⟩ <;> (unfold award_match_points_f; rw [hfind]; rfl)

/-- Claim C2: saving a fresh bout result awards exactly 30 points and
one win to the declared winner and exactly 10 points and one loss to
the other competitor, and saving the stored result again (an edit, with
its primary key set) leaves every points row unchanged. -/
theorem C2_award_once (db : DB) (r : MatchResultR) (y m : Int) (mr : MatchRow)
    (hfind : db.bouts.find? (fun x => x.id == r.match_id) = some mr)
    (hnew : r.pk = none)
    (hnores : db.results.any (fun x => x.match_id == r.match_id) = false)
    (hwin : r.winner = mr.competitor1 ∨ r.winner = mr.competitor2)
    (hne : mr.competitor1 ≠ mr.competitor2) :
    ∃ db2, matchResultSave db r y m = some db2 ∧
      findPoints db2.points r.winner =
        some { getOrCreatePoints db.points r.winner with
          total_points := (getOrCreatePoints db.points r.winner).total_points + 30,
          wins := (getOrCreatePoints db.points r.winner).wins + 1 } ∧
      findPoints db2.points
          (if r.winner = mr.competitor1 then mr.competitor2 else mr.competitor1) =
        some { getOrCreatePoints db.points
            (if r.winner = mr.competitor1 then mr.competitor2 else mr.competitor1) with
          total_points := (getOrCreatePoints db.points
            (if r.winner = mr.competitor1 then mr.competitor2 else mr.competitor1)).total_points + 10,
          losses := (getOrCreatePoints db.points
            (if r.winner = mr.competitor1 then mr.competitor2 else mr.competitor1)).losses + 1 } ∧
      ∀ pk2 : Nat, ∃ db3, matchResultSave db2 { r with pk := some pk2 } y m = some db3 ∧
        db3.points = db2.points := by
  set other := (if r.winner = mr.competitor1 then mr.competitor2 else mr.competitor1) with hother
  set wp := getOrCreatePoints db.points r.winner with hwp
  set lp := getOrCreatePoints db.points other with hlp
  have hwo : r.winner ≠ other := by
    rcases hwin with h1 | h2
    · show r.winner ≠ if r.winner = mr.competitor1 then mr.competitor2 else mr.competitor1
      rw [if_pos h1]
      rw [h1]
      exact hne
    · show r.winner ≠ if r.winner = mr.competitor1 then mr.competitor2 else mr.competitor1
      by_cases hc : r.winner = mr.competitor1
      · rw [if_pos hc]
        rw [hc]
        exact hne
      · rw [if_neg hc]
        exact hc
  have hcc : (if mr.competitor2 == r.winner then mr.competitor1 else mr.competitor2) = other := by
    rcases hwin with h1 | h2
    · have hb : (mr.competitor2 == r.winner) = false := by
        refine beq_false_of_ne ?_
        intro e
        exact hne (h1.symm.trans e.symm)
      rw [hb]
      show mr.competitor2 = other
      rw [show other = if r.winner = mr.competitor1 then mr.competitor2 else mr.competitor1 from rfl,
        if_pos h1]
    · have hb : (mr.competitor2 == r.winner) = true := by
        rw [h2]
        exact beq_self_eq_true _
      rw [hb]
      show mr.competitor1 = other
      by_cases hc : r.winner = mr.competitor1
      · exact absurd (hc.symm.trans h2) hne
      · rw [show other = if r.winner = mr.competitor1 then mr.competitor2 else mr.competitor1 from rfl,
          if_neg hc]
  -- the saved database and the award chain it runs
  have hsave := save_f_run db r none y m hnew hnores
  have hbout := find_bout_update db.bouts r.match_id r.winner mr hfind
  have haward := (award_f_run
    { db with
        results := db.results ++ [{ r with pk := some r.match_id }]
        bouts := db.bouts.map (fun mm => if mm.id == r.match_id then
          { mm with winner := some r.winner, status := "completed" } else mm) }
    r y m { mr with winner := some r.winner, status := "completed" } hbout).1
  have hccm : (if ({ mr with winner := some r.winner, status := "completed" } : MatchRow).competitor2 ==
      r.winner then ({ mr with winner := some r.winner, status := "completed" } : MatchRow).competitor1
      else ({ mr with winner := some r.winner, status := "completed" } : MatchRow).competitor2) = other := hcc
  rw [hccm] at haward
  refine ⟨_, hsave.trans (congrArg some haward), ?_, ?_, ?_⟩
  · -- winner lookup
    have hpts : (update_leaderboards
        (add_loss
          (add_win
            { db with
                results := db.results ++ [{ r with pk := some r.match_id }]
                bouts := db.bouts.map (fun mm => if mm.id == r.match_id then
                  { mm with winner := some r.winner, status := "completed" } else mm)
                points := ensurePoints (ensurePoints db.points r.winner) other }
            wp)
          (getOrCreatePoints (ensurePoints db.points r.winner) other)) y m).points =
        upsertPoints
          (upsertPoints (ensurePoints (ensurePoints db.points r.winner) other)
            { wp with total_points := wp.total_points + 30, wins := wp.wins + 1 })
          (let lp2 := getOrCreatePoints (ensurePoints db.points r.winner) other
           { lp2 with total_points := lp2.total_points + 10, losses := lp2.losses + 1 }) := by
      rw [update_lbs_points, add_loss_points, add_win_points]
    rw [hpts]
    have hlpt : (getOrCreatePoints (ensurePoints db.points r.winner) other) = lp :=
      getOrCreate_ensure_ne db.points r.winner other (fun e => hwo e.symm)
    dsimp only
    rw [hlpt]
    rw [findPoints_upsert_ne _ _ r.winner
      (by simp only [hlp, getOrCreate_trainee]; exact hwo)]
    exact findPoints_upsert_self_at (ensurePoints (ensurePoints db.points r.winner) other)
      { wp with total_points := wp.total_points + 30, wins := wp.wins + 1 } r.winner
      (getOrCreate_trainee db.points r.winner)
  · -- loser lookup
    have hpts : (update_leaderboards
        (add_loss
          (add_win
            { db with
                results := db.results ++ [{ r with pk := some r.match_id }]
                bouts := db.bouts.map (fun mm => if mm.id == r.match_id then
                  { mm with winner := some r.winner, status := "completed" } else mm)
                points := ensurePoints (ensurePoints db.points r.winner) other }
            wp)
          (getOrCreatePoints (ensurePoints db.points r.winner) other)) y m).points =
        upsertPoints
          (upsertPoints (ensurePoints (ensurePoints db.points r.winner) other)
            { wp with total_points := wp.total_points + 30, wins := wp.wins + 1 })
          (let lp2 := getOrCreatePoints (ensurePoints db.points r.winner) other
           { lp2 with total_points := lp2.total_points + 10, losses := lp2.losses + 1 }) := by
      rw [update_lbs_points, add_loss_points, add_win_points]
    rw [hpts]
    have hlpt : (getOrCreatePoints (ensurePoints db.points r.winner) other) = lp :=
      getOrCreate_ensure_ne db.points r.winner other (fun e => hwo e.symm)
    dsimp only
    rw [hlpt]
    exact findPoints_upsert_self_at
      (upsertPoints (ensurePoints (ensurePoints db.points r.winner) other)
        { wp with total_points := wp.total_points + 30, wins := wp.wins + 1 })
      { lp with total_points := lp.total_points + 10, losses := lp.losses + 1 } other
      (by simp only [hlp, getOrCreate_trainee])
  · -- a second save of the stored result changes no points row
    intro pk2
    exact ⟨_, rfl, rfl⟩

/-- Database of the witness of claim C2: two white trainees, trainee 1
already holding 100 points from 2 wins and 1 loss, one scheduled bout. -/
def c2db : DB :=
  { trainees := [{ id := 1, belt_rank := "white", weight := 60, age := none },
      { id := 2, belt_rank := "white", weight := 55, age := none }]
    points := [{ trainee := 1, total_points := 100, wins := 2, losses := 1 }]
    thresholds := []
    progress := []
    leaderboard := []
    bouts := [{ id := 10, competitor1 := 1, competitor2 := 2, winner := none, status := "scheduled" }]
    results := [] }

/-- Fresh result of the witness of claim C2: bout 10, winner trainee 1. -/
def c2r : MatchResultR := { pk := none, match_id := 10, winner := 1 }

/-- Witness for claim C2: recording the result takes trainee 1 from
100 points, 2 wins, 1 loss to 130 points, 3 wins, 1 loss, and creates
the row of trainee 2 with 10 points and one loss. -/
theorem C2_award_once_witness :
    ((matchResultSave c2db c2r 2026 10).map (fun d =>
      (findPoints d.points 1, findPoints d.points 2))) =
      some (some { trainee := 1, total_points := 130, wins := 3, losses := 1 },
        some { trainee := 2, total_points := 10, wins := 0, losses := 1 }) := by
  obtain ⟨db2, heq, h1, h2, h3⟩ := C2_award_once c2db c2r 2026 10
    { id := 10, competitor1 := 1, competitor2 := 2, winner := none, status := "scheduled" }
    (by decide) rfl (by decide) (Or.inl rfl) (by decide)
  rw [heq]
  simp only [Option.map_some']
  have hh1 : findPoints db2.points 1 =
      some { trainee := 1, total_points := 130, wins := 3, losses := 1 } := h1
  have hh2 : findPoints db2.points 2 =
      some { trainee := 2, total_points := 10, wins := 0, losses := 1 } := h2
  rw [hh1, hh2]

theorem add_win_results (db : DB) (tp : TraineePointsR) :
    (add_win db tp).results = db.results := by
  unfold add_win
  exact (check_promo_fields _ _).2.2.2

theorem add_win_bouts (db : DB) (tp : TraineePointsR) :
    (add_win db tp).bouts = db.bouts := by
  unfold add_win
  exact (check_promo_fields _ _).2.2.1

/-- Database of the counterexample and witness of claim C1: two white
trainees with no points rows and one scheduled bout. -/
def c1db : DB :=
  { trainees := [{ id := 1, belt_rank := "white", weight := 60, age := none },
      { id := 2, belt_rank := "white", weight := 55, age := none }]
    points := []
    thresholds := []
    progress := []
    leaderboard := []
    bouts := [{ id := 10, competitor1 := 1, competitor2 := 2, winner := none, status := "scheduled" }]
    results := [] }

/-- Fresh result of the counterexample and witness of claim C1. -/
def c1r : MatchResultR := { pk := none, match_id := 10, winner := 1 }

/-- Claim C1, counterexample: when the loss-award step of the chain
raises (the exception is caught and only printed, models.py 314-316),
the resulting state is neither the fully-applied state nor the original
one: the chain is not atomic. -/
theorem C1_atomicity_counterexample :
    ¬ (matchResultSave_f c1db c1r (some AwardStep.lossAward) 2026 10 =
         matchResultSave c1db c1r 2026 10 ∨
       matchResultSave_f c1db c1r (some AwardStep.lossAward) 2026 10 = some c1db) := by
  decide

/-- Claim C1 as amended: the result-recording chain has no transaction
and no rollback; when the loss-award step fails, the stored result row,
the completed bout with its winner, and the 30-point win award of the
winner all persist, while the loser row keeps its prior state and the
leaderboards are not rebuilt. -/
theorem C1_no_rollback (db : DB) (r : MatchResultR) (y m : Int) (mr : MatchRow)
    (hfind : db.bouts.find? (fun x => x.id == r.match_id) = some mr)
    (hnew : r.pk = none)
    (hnores : db.results.any (fun x => x.match_id == r.match_id) = false)
    (hwin : r.winner = mr.competitor1)
    (hne : mr.competitor1 ≠ mr.competitor2) :
    ∃ dbf, matchResultSave_f db r (some AwardStep.lossAward) y m = some dbf ∧
      dbf.results = db.results ++ [{ r with pk := some r.match_id }] ∧
      dbf.bouts.find? (fun x => x.id == r.match_id) =
        some { mr with winner := some r.winner, status := "completed" } ∧
      findPoints dbf.points r.winner =
        some { getOrCreatePoints db.points r.winner with
          total_points := (getOrCreatePoints db.points r.winner).total_points + 30,
          wins := (getOrCreatePoints db.points r.winner).wins + 1 } ∧
      findPoints dbf.points mr.competitor2 = some (getOrCreatePoints db.points mr.competitor2) ∧
      dbf.leaderboard = db.leaderboard := by
  have hc2w : mr.competitor2 ≠ r.winner := by
    intro e
    exact hne (e.trans hwin).symm
  have hsave := save_f_run db r (some AwardStep.lossAward) y m hnew hnores
  have hbout := find_bout_update db.bouts r.match_id r.winner mr hfind
  have haward := (award_f_run
    { db with
        results := db.results ++ [{ r with pk := some r.match_id }]
        bouts := db.bouts.map (fun mm => if mm.id == r.match_id then
          { mm with winner := some r.winner, status := "completed" } else mm) }
    r y m { mr with winner := some r.winner, status := "completed" } hbout).2.2.1
  have hccm : (if ({ mr with winner := some r.winner, status := "completed" } : MatchRow).competitor2 ==
      r.winner then ({ mr with winner := some r.winner, status := "completed" } : MatchRow).competitor1
      else ({ mr with winner := some r.winner, status := "completed" } : MatchRow).competitor2) =
      mr.competitor2 := by
    have hb : (mr.competitor2 == r.winner) = false := beq_false_of_ne hc2w
    show (if (mr.competitor2 == r.winner) = true then mr.competitor1 else mr.competitor2) =
      mr.competitor2
    rw [hb]
    simp
  rw [hccm] at haward
  refine ⟨_, hsave.trans (congrArg some haward), ?_, ?_, ?_, ?_, ?_⟩
  · rw [add_win_results]
  · rw [add_win_bouts]
    exact hbout
  · rw [add_win_points]
    exact findPoints_upsert_self_at
      (ensurePoints (ensurePoints db.points r.winner) mr.competitor2)
      { getOrCreatePoints db.points r.winner with
        total_points := (getOrCreatePoints db.points r.winner).total_points + 30,
        wins := (getOrCreatePoints db.points r.winner).wins + 1 } r.winner
      (getOrCreate_trainee db.points r.winner)
  · rw [add_win_points]
    rw [findPoints_upsert_ne _ _ mr.competitor2 (by
      simp only [getOrCreate_trainee]
      exact hc2w)]
    rw [findPoints_ensure_self]
    rw [getOrCreate_ensure_ne db.points r.winner mr.competitor2 hc2w]
  · rw [add_win_leaderboard]

/-- Witness for claim C1: on the concrete database, failing at the
loss-award step still stores the result row, completes the bout, and
gives the winner 30 points, while the loser row stays default and the
leaderboard stays empty. -/
theorem C1_no_rollback_witness :
    (matchResultSave_f c1db c1r (some AwardStep.lossAward) 2026 10).map
      (fun d => (d.results, d.leaderboard, findPoints d.points 1, findPoints d.points 2)) =
      some ([{ pk := some 10, match_id := 10, winner := 1 }], ([] : List LeaderboardR),
        some { trainee := 1, total_points := 30, wins := 1, losses := 0 },
        some { trainee := 2, total_points := 0, wins := 0, losses := 0 }) := by
  obtain ⟨dbf, heq, h1, h2, h3, h4, h5⟩ := C1_no_rollback c1db c1r 2026 10
    { id := 10, competitor1 := 1, competitor2 := 2, winner := none, status := "scheduled" }
    (by decide) rfl (by decide) rfl (by decide)
  rw [heq]
  simp only [Option.map_some']
  have hh1 : dbf.results = [{ pk := some 10, match_id := 10, winner := 1 }] := h1
  have hh3 : findPoints dbf.points 1 =
      some { trainee := 1, total_points := 30, wins := 1, losses := 0 } := h3
  have hh4 : findPoints dbf.points 2 =
      some { trainee := 2, total_points := 0, wins := 0, losses := 0 } := h4
  have hh5 : dbf.leaderboard = [] := h5
  rw [hh1, hh3, hh4, hh5]

/-- Ranking named by the specification of the Leaderboard Builder: pull
every points row, sort descending by total points (stable), and assign
positions 1..N in that order, yielding (trainee, position, points)
triples.  This is the specification-side description the three
timeframe branches are compared against. -/
def specRanking (points : List TraineePointsR) : List (Nat × Nat × Int) :=
  (List.enumFrom 1
    (stableSort (fun a b => decide (b.total_points ≤ a.total_points)) points)).map
    (fun p => (p.2.trainee, p.1, p.2.total_points))

/-- Specification-side upsert of a ranking under one timeframe key:
one leaderboard entry per (trainee, position, points) triple. -/
def specApplyRanking (lb : List LeaderboardR) (trainees : List Trainee) (timeframe : String)
    (year month : Option Int) : List (Nat × Nat × Int) → List LeaderboardR
  | [] => lb
  | (tid, pos, pts) :: rest =>
    specApplyRanking
      (lbUpsert lb
        { trainee := tid, rank := pos, points := pts, timeframe := timeframe,
          belt_rank := beltOf trainees tid, year := year, month := month })
      trainees timeframe year month rest

theorem lb_rank_loop_eq_spec (trainees : List Trainee) (timeframe : String)
    (year month : Option Int) (ranked : List TraineePointsR) :
    ∀ (lb : List LeaderboardR) (n : Nat),
    lb_rank_loop trainees timeframe year month lb n ranked =
      specApplyRanking lb trainees timeframe year month
        ((List.enumFrom n ranked).map (fun p => (p.2.trainee, p.1, p.2.total_points))) := by
  induction ranked with
  | nil => intro lb n; rfl
  | cons tp rest ih =>
    intro lb n
    rw [lb_rank_loop, List.enumFrom, List.map, specApplyRanking]
    exact ih _ _

/-- Claim C9: the yearly and the monthly leaderboard rebuilds compute
exactly the same ranking (the same position and points for every
competitor, from every points row sorted descending with positions
1..N) as the all-time rebuild, with no filtering by the dates the
points were earned; the three branches differ only in the
(timeframe, year, month) key of the stored entries. -/
theorem C9_timeframe_equivalence (db : DB) (y m : Int) :
    update_timeframe_leaderboard db "all_time" y m =
      { db with leaderboard :=
          (specApplyRanking db.leaderboard db.trainees "all_time" none none
            (specRanking db.points)) } ∧
    update_timeframe_leaderboard db "yearly" y m =
      { db with leaderboard :=
          (specApplyRanking db.leaderboard db.trainees "yearly" (some y) none
            (specRanking db.points)) } ∧
    update_timeframe_leaderboard db "monthly" y m =
      { db with leaderboard :=
          (specApplyRanking db.leaderboard db.trainees "monthly" (some y) (some m)
            (specRanking db.points)) } := by
  refine ⟨?_, ?_, ?_⟩
  · show { db with leaderboard :=
        (lb_rank_loop db.trainees "all_time" none none db.leaderboard 1
          (stableSort (fun a b => decide (b.total_points ≤ a.total_points)) db.points)) } = _
    rw [lb_rank_loop_eq_spec]
    rfl
  · show { db with leaderboard :=
        (lb_rank_loop db.trainees "yearly" (some y) none db.leaderboard 1
          (stableSort (fun a b => decide (b.total_points ≤ a.total_points)) db.points)) } = _
    rw [lb_rank_loop_eq_spec]
    rfl
  · show { db with leaderboard :=
        (lb_rank_loop db.trainees "monthly" (some y) (some m) db.leaderboard 1
          (stableSort (fun a b => decide (b.total_points ≤ a.total_points)) db.points)) } = _
    rw [lb_rank_loop_eq_spec]
    rfl

theorem mem_insertSorted {α : Type} (le : α → α → Bool) (x y : α) (l : List α) :
    y ∈ insertSorted le x l ↔ y = x ∨ y ∈ l := by
  induction l with
  | nil => simp [insertSorted]
  | cons z zs ih =>
    rw [insertSorted]
    by_cases h : le x z = true
    · rw [if_pos h]
      simp [List.mem_cons]
    · rw [if_neg h]
      simp only [List.mem_cons, ih]
      tauto

theorem mem_stableSort {α : Type} (le : α → α → Bool) (y : α) (l : List α) :
    y ∈ stableSort le l ↔ y ∈ l := by
  induction l with
  | nil => simp [stableSort]
  | cons x xs ih =>
    rw [stableSort, mem_insertSorted]
    simp only [List.mem_cons, ih]

theorem pairsOf_ne {l : List Trainee} (h : (l.map (fun t => t.id)).Nodup) :
    ∀ p ∈ pairsOf l, p.1.id ≠ p.2.id := by
  induction l with
  | nil => intro p hp; cases hp
  | cons x xs ih =>
    have hcons : (x.id :: xs.map (fun t => t.id)).Nodup := h
    have hx : x.id ∉ xs.map (fun t => t.id) := (List.nodup_cons.mp hcons).1
    have hxs : (xs.map (fun t => t.id)).Nodup := (List.nodup_cons.mp hcons).2
    intro p hp
    rw [pairsOf] at hp
    rcases List.mem_append.mp hp with h1 | h2
    · rcases List.mem_map.mp h1 with ⟨y, hy, rfl⟩
      intro e
      exact hx (e ▸ List.mem_map.mpr ⟨y, hy, rfl⟩)
    · exact ih hxs p h2

theorem greedy_select_ids (pairs : List (Trainee × Trainee × ℚ))
    (hp : ∀ p ∈ pairs, p.1.id ≠ p.2.1.id) :
    ∀ used : List Nat,
      ((greedy_select pairs used).flatMap
        (fun q => [q.competitor1.id, q.competitor2.id])).Nodup ∧
      ∀ x ∈ (greedy_select pairs used).flatMap
        (fun q => [q.competitor1.id, q.competitor2.id]), x ∉ used := by
  induction pairs with
  | nil =>
    intro used
    constructor
    · simp [greedy_select]
    · intro x hx
      simp [greedy_select] at hx
  | cons q rest ih =>
    intro used
    obtain ⟨t1, t2, s⟩ := q
    have hpr : ∀ p ∈ rest, p.1.id ≠ p.2.1.id := fun p hm => hp p (List.mem_cons_of_mem _ hm)
    by_cases hc : (used.contains t1.id || used.contains t2.id) = true
    · rw [greedy_select, if_pos hc]
      exact ih hpr used
    · have hcf : (used.contains t1.id || used.contains t2.id) = false := by
        cases hx : (used.contains t1.id || used.contains t2.id) with
        | true => exact absurd hx hc
        | false => rfl
      have hc1 : t1.id ∉ used := by
        intro hmem
        have : used.contains t1.id = true := List.elem_iff.mpr hmem
        rw [this] at hcf
        simp at hcf
      have hc2 : t2.id ∉ used := by
        intro hmem
        have : used.contains t2.id = true := List.elem_iff.mpr hmem
        rw [this] at hcf
        simp at hcf
      rw [greedy_select, if_neg hc]
      obtain ⟨ihn, ihu⟩ := ih hpr (used ++ [t1.id, t2.id])
      constructor
      · show (t1.id :: t2.id :: (greedy_select rest (used ++ [t1.id, t2.id])).flatMap
          (fun q => [q.competitor1.id, q.competitor2.id])).Nodup
        refine List.nodup_cons.mpr ⟨?_, List.nodup_cons.mpr ⟨?_, ihn⟩⟩
        · intro hx
          rcases List.mem_cons.mp hx with e | hx2
          · exact hp (t1, t2, s) (List.mem_cons_self _ _) e
          · exact (ihu t1.id hx2) (by simp)
        · intro hx2
          exact (ihu t2.id hx2) (by simp)
      · intro x hx
        rcases List.mem_cons.mp hx with rfl | hx2
        · exact hc1
        rcases List.mem_cons.mp hx2 with rfl | hx3
        · exact hc2
        · intro hmem
          exact (ihu x hx3) (List.mem_append_left _ hmem)

/-- Claim C10: when the registered trainees of the event are pairwise
distinct (the uniqueness constraint of EventRegistration), no
competitor appears in more than one proposed pair of one auto_match
call: the list of all competitor ids across the result is free of
duplicates. -/
theorem C10_no_duplicates (registrations : List EventRegistration)
    (existing_matches : List MatchRec)
    (h : ((registrations.filter (fun r => r.status == "registered")).map
      (fun r => r.trainee.id)).Nodup) :
    ((auto_match registrations existing_matches).flatMap
      (fun p => [p.competitor1.id, p.competitor2.id])).Nodup := by
  have hmm : (((registrations.filter (fun r => r.status == "registered")).map
      (fun r => r.trainee)).map (fun t => t.id)) =
      (registrations.filter (fun r => r.status == "registered")).map
        (fun r => r.trainee.id) := by
    rw [List.map_map]
    rfl
  have havail : (((((registrations.filter (fun r => r.status == "registered")).map
      (fun r => r.trainee)).filter
        (fun t => !(((existing_matches.filter (fun mm => mm.status != "cancelled")).flatMap
          (fun mm => [mm.competitor1_id, mm.competitor2_id])).contains t.id))).map
            (fun t => t.id))).Nodup := by
    refine List.Nodup.sublist ?_ (hmm ▸ h)
    exact (List.filter_sublist _).map _
  have hpairs := pairsOf_ne havail
  have htrip : ∀ t ∈ stableSort (fun a b => decide (a.2.2 ≤ b.2.2))
      (((pairsOf ((((registrations.filter (fun r => r.status == "registered")).map
        (fun r => r.trainee)).filter
          (fun t => !(((existing_matches.filter (fun mm => mm.status != "cancelled")).flatMap
            (fun mm => [mm.competitor1_id, mm.competitor2_id])).contains t.id))))).filter
        (fun p => is_valid_pairing p.1 p.2)).map
          (fun p => (p.1, p.2, calculate_pairing_score p.1 p.2))),
      t.1.id ≠ t.2.1.id := by
    intro t ht
    have ht2 := (mem_stableSort _ t _).mp ht
    rcases List.mem_map.mp ht2 with ⟨p, hpmem, rfl⟩
    exact hpairs p (List.mem_of_mem_filter hpmem)
  exact (greedy_select_ids _ htrip []).1

/-- Registrations of the witness of claim C10: three registered white
trainees of similar weight. -/
def c10regs : List EventRegistration :=
  [{ trainee := { id := 21, belt_rank := "white", weight := 60, age := none },
     status := "registered" },
   { trainee := { id := 22, belt_rank := "white", weight := 61, age := none },
     status := "registered" },
   { trainee := { id := 23, belt_rank := "white", weight := 62, age := none },
     status := "registered" }]

/-- Witness for claim C10: no competitor id repeats across the pairs
proposed for the three registered trainees. -/
theorem C10_no_duplicates_witness :
    ((auto_match c10regs []).flatMap
      (fun p => [p.competitor1.id, p.competitor2.id])).Nodup := by
  have h : ((c10regs.filter (fun r => r.status == "registered")).map
      (fun r => r.trainee.id)).Nodup := by decide
  exact C10_no_duplicates c10regs [] h

end Karate
